import Mathlib

/-!
Shallow embedding of `app.js` from the house-paint-app repository.

JavaScript numbers are modelled as exact rationals (`ℚ`); `Math.round`
and the `Uint8ClampedArray` store conversion are modelled explicitly.
Pixel buffers (`ImageData.data`) are modelled as lists of RGBA pixels
with natural-number channels.
-/

namespace HousePaint

/-- JS `Math.round`: round half toward positive infinity. -/
def jsRound (q : ℚ) : ℤ := ⌊q + 1/2⌋

/-- The conversion applied when a JS number is stored into a
`Uint8ClampedArray` element (ECMAScript ToUint8Clamp): clamp to
[0, 255] and round to the nearest integer, ties to even. -/
def clampToUint8 (q : ℚ) : ℕ :=
  if q ≤ 0 then 0
  else if 255 ≤ q then 255
  else
    let f := ⌊q⌋
    (if q - f < 1/2 then f
     else if 1/2 < q - f then f + 1
     else if f % 2 = 0 then f else f + 1).toNat

/-- One RGBA sample of an `ImageData` buffer (channels are 8-bit in the
browser; the invariant `≤ 255` is carried as hypotheses where needed). -/
structure Pixel where
  r : ℕ
  g : ℕ
  b : ℕ
  a : ℕ
deriving DecidableEq, Repr

/-- `hexToRgb` from app.js, after `parseInt(hex.slice(1), 16)` has
produced the integer `bigint`:
`[(bigint >> 16) & 255, (bigint >> 8) & 255, bigint & 255]`. -/
def hexToRgb (bigint : ℕ) : ℕ × ℕ × ℕ :=
  ((bigint >>> 16) &&& 255, (bigint >>> 8) &&& 255, bigint &&& 255)

/-- `lerp` from app.js: `start * (1 - t) + end * t`. -/
def lerp (start stop t : ℚ) : ℚ := start * (1 - t) + stop * t

/-- `rgbToHsl` from app.js.  Divides each channel by 255, takes max/min,
lightness is the midpoint; achromatic inputs give h = s = 0; otherwise
saturation and a per-dominant-channel hue (divided by 6 at the end). -/
def rgbToHsl (r g b : ℚ) : ℚ × ℚ × ℚ :=
  let r' := r / 255
  let g' := g / 255
  let b' := b / 255
  let mx := max r' (max g' b')
  let mn := min r' (min g' b')
  let l := (mx + mn) / 2
  if mx = mn then (0, 0, l)
  else
    let d := mx - mn
    let s := if l > 1/2 then d / (2 - mx - mn) else d / (mx + mn)
    let h :=
      (if mx = r' then (g' - b') / d + (if g' < b' then 6 else 0)
       else if mx = g' then (b' - r') / d + 2
       else (r' - g') / d + 4) / 6
    (h, s, l)

/-- The `hue2rgb` helper inside `hslToRgb` in app.js: wrap `t` into
[0, 1] (adding 1 if negative, subtracting 1 if above 1, in that order),
then the standard piecewise linear ramp between `p` and `q`. -/
def hue2rgb (p q t : ℚ) : ℚ :=
  let t1 := if t < 0 then t + 1 else t
  let t2 := if t1 > 1 then t1 - 1 else t1
  if t2 < 1/6 then p + (q - p) * 6 * t2
  else if t2 < 1/2 then q
  else if t2 < 2/3 then p + (q - p) * (2/3 - t2) * 6
  else p

/-- `hslToRgb` from app.js: zero saturation gives the grayscale
`l` on all three channels; otherwise the standard `p`/`q` construction
and `hue2rgb` at `h + 1/3`, `h`, `h - 1/3`; each channel is
`Math.round(x * 255)`. -/
def hslToRgb (h s l : ℚ) : ℤ × ℤ × ℤ :=
  if s = 0 then
    (jsRound (l * 255), jsRound (l * 255), jsRound (l * 255))
  else
    let q := if l < 1/2 then l * (1 + s) else l + s - l * s
    let p := 2 * l - q
    (jsRound (hue2rgb p q (h + 1/3) * 255),
     jsRound (hue2rgb p q h * 255),
     jsRound (hue2rgb p q (h - 1/3) * 255))

/-- The body of the per-pixel loop of `applyColor` in app.js, for one
pixel: when the mask alpha is positive, convert the source pixel to HSL
for its lightness, synthesize `hslToRgb(hT, sT, l)`, and blend each RGB
channel with `lerp` weighted by `maskAlpha / 255` (the store into the
`Uint8ClampedArray` clamps and rounds); the alpha channel is not
written.  When the mask alpha is 0 the pixel is left untouched. -/
def applyColorPixel (hT sT : ℚ) (src msk : Pixel) : Pixel :=
  let maskAlpha := msk.a
  if maskAlpha > 0 then
    let l := (rgbToHsl src.r src.g src.b).2.2
    let alphaFactor : ℚ := (maskAlpha : ℚ) / 255
    let c := hslToRgb hT sT l
    { r := clampToUint8 (lerp src.r c.1 alphaFactor)
      g := clampToUint8 (lerp src.g c.2.1 alphaFactor)
      b := clampToUint8 (lerp src.b c.2.2 alphaFactor)
      a := src.a }
  else src

/-- The pixel-buffer core of `applyColor` in app.js: the target color is
converted to HSL once, then the per-pixel loop runs over the source
buffer (freshly redrawn from the original image) and the mask buffer. -/
def applyColor (source mask : List Pixel) (hex : ℕ) : List Pixel :=
  let t := hexToRgb hex
  let hslT := rgbToHsl t.1 t.2.1 t.2.2
  List.zipWith (applyColorPixel hslT.1 hslT.2.1) source mask

/-- The error taxonomy of the specification (§7), used to classify the
`Error` values thrown and caught in app.js. -/
inductive AppError where
  | decodeError
  | serviceError (statusText : String)
  | invalidResponse
  | invalidState
deriving DecidableEq, Repr

/-- The segmentation service's reply as seen by `handleMasking` after
`fetch` and `response.json()`: the HTTP success flag (`response.ok`),
the status text, and the `maskPngBase64` field when present.  The field
is modelled as the mask buffer it decodes to (PNG decoding, resizing to
the canvas and the 2px feathering blur are performed by browser canvas
primitives, outside app.js). -/
structure MaskResponse where
  ok : Bool
  statusText : String
  maskPngBase64 : Option (List Pixel)
deriving DecidableEq, Repr

/-- The module-level mutable state of app.js (`originalImage`,
`maskCanvas`, `currentFile`), together with the visible canvas contents
and the disabled flags of the two buttons. -/
structure Session where
  originalImage : Option (List Pixel)
  maskCanvas : Option (List Pixel)
  currentFile : Option Unit
  canvas : List Pixel
  btnMaskDisabled : Bool
  btnApplyDisabled : Bool
deriving DecidableEq, Repr

/-- The states of the spec's session state machine (§4.4). -/
inductive SessionState where
  | empty
  | imageLoaded
  | masked
deriving DecidableEq, Repr

/-- The spec's state machine read off the app.js globals: no image →
Empty; image but no mask → ImageLoaded; image and mask → Masked. -/
def Session.state (s : Session) : SessionState :=
  match s.originalImage, s.maskCanvas with
  | none, _ => .empty
  | some _, none => .imageLoaded
  | some _, some _ => .masked

/-- `applyColor` in app.js as an operation on the session: the guard
`if (!originalImage || !maskCanvas) return;` returns silently (no error
is thrown and no status is set); otherwise the canvas is redrawn from
the original image, the pixel loop runs, and `putImageData` stores the
result on the canvas.  The second component records a thrown error, of
which this function has none. -/
def applyColorOp (s : Session) (hex : ℕ) : Session × Option AppError :=
  match s.originalImage, s.maskCanvas with
  | some img, some msk => ({ s with canvas := applyColor img msk hex }, none)
  | _, _ => (s, none)

/-- `handleImageUpload` in app.js on a successfully decoded file: store
the file, install the decoded (possibly downscaled) image, clear any
existing mask, enable the Mask button, disable the Apply button, and
draw the image to the canvas. -/
def handleImageUpload (s : Session) (img : List Pixel) : Session :=
  { s with
    originalImage := some img
    maskCanvas := none
    currentFile := some ()
    canvas := img
    btnMaskDisabled := false
    btnApplyDisabled := true }

/-- `handleMasking` in app.js, with the service's reply passed in as
`resp` and the color picker's current value as `hex` (read by the
auto-applied `applyColor()` call on success).  Errors thrown inside the
`try` block (`API Error: <statusText>` when `!response.ok`, `Invalid
response: No mask data received` when the mask field is absent) are
caught and surfaced as a status message, leaving every global
untouched; the returned pair carries the unchanged session and the
error. -/
def handleMasking (s : Session) (resp : MaskResponse) (hex : ℕ) :
    Session × Option AppError :=
  if s.currentFile = none then (s, none)
  else if resp.ok = false then (s, some (.serviceError resp.statusText))
  else
    match resp.maskPngBase64 with
    | none => (s, some .invalidResponse)
    | some m =>
        let s1 := { s with maskCanvas := some m, btnApplyDisabled := false }
        ((applyColorOp s1 hex).1, none)

theorem jsRound_mem (q : ℚ) (h0 : 0 ≤ q) (h1 : q ≤ 255) :
    0 ≤ jsRound q ∧ jsRound q ≤ 255 := by
  unfold jsRound
  constructor
  · exact Int.le_floor.mpr (by push_cast; linarith)
  · rw [Int.floor_le_iff]; push_cast; linarith

theorem rgbToHsl_l_mem (r g b : ℚ) (hr0 : 0 ≤ r) (hr1 : r ≤ 255)
    (hg0 : 0 ≤ g) (hg1 : g ≤ 255) (hb0 : 0 ≤ b) (hb1 : b ≤ 255) :
    0 ≤ (rgbToHsl r g b).2.2 ∧ (rgbToHsl r g b).2.2 ≤ 1 := by
  simp only [rgbToHsl]
  set r' := r / 255 with hr'
  set g' := g / 255 with hg'
  set b' := b / 255 with hb'
  have hr'0 : 0 ≤ r' := by rw [hr']; positivity
  have hg'0 : 0 ≤ g' := by rw [hg']; positivity
  have hb'0 : 0 ≤ b' := by rw [hb']; positivity
  have hr'1 : r' ≤ 1 := by rw [hr', div_le_one] <;> linarith
  have hg'1 : g' ≤ 1 := by rw [hg', div_le_one] <;> linarith
  have hb'1 : b' ≤ 1 := by rw [hb', div_le_one] <;> linarith
  have hmx1 : max r' (max g' b') ≤ 1 := max_le hr'1 (max_le hg'1 hb'1)
  have hmn0 : 0 ≤ min r' (min g' b') := le_min hr'0 (le_min hg'0 hb'0)
  have hmnmx : min r' (min g' b') ≤ max r' (max g' b') :=
    le_trans (min_le_left _ _) (le_max_left _ _)
  split_ifs <;> simp only <;> constructor <;> linarith

theorem rgbToHsl_s_mem (r g b : ℚ) (hr0 : 0 ≤ r) (hr1 : r ≤ 255)
    (hg0 : 0 ≤ g) (hg1 : g ≤ 255) (hb0 : 0 ≤ b) (hb1 : b ≤ 255) :
    0 ≤ (rgbToHsl r g b).2.1 ∧ (rgbToHsl r g b).2.1 ≤ 1 := by
  simp only [rgbToHsl]
  set r' := r / 255 with hr'
  set g' := g / 255 with hg'
  set b' := b / 255 with hb'
  have hr'0 : 0 ≤ r' := by rw [hr']; positivity
  have hg'0 : 0 ≤ g' := by rw [hg']; positivity
  have hb'0 : 0 ≤ b' := by rw [hb']; positivity
  have hr'1 : r' ≤ 1 := by rw [hr', div_le_one] <;> linarith
  have hg'1 : g' ≤ 1 := by rw [hg', div_le_one] <;> linarith
  have hb'1 : b' ≤ 1 := by rw [hb', div_le_one] <;> linarith
  set mx := max r' (max g' b') with hmx
  set mn := min r' (min g' b') with hmn
  have hmx1 : mx ≤ 1 := max_le hr'1 (max_le hg'1 hb'1)
  have hmn0 : 0 ≤ mn := le_min hr'0 (le_min hg'0 hb'0)
  have hmnmx : mn ≤ mx := le_trans (min_le_left _ _) (le_max_left _ _)
  by_cases hc : mx = mn
  · rw [if_pos hc]; dsimp only; norm_num
  · rw [if_neg hc]; dsimp only
    have hlt : mn < mx := lt_of_le_of_ne hmnmx (fun h => hc h.symm)
    split_ifs with hl
    · -- l > 1/2, so saturation is d / (2 - mx - mn)
      have hden : 0 < 2 - mx - mn := by linarith
      constructor
      · apply div_nonneg <;> linarith
      · rw [div_le_one hden]; linarith
    · have hden : 0 < mx + mn := by
        rcases lt_or_le 0 mx with h | h
        · linarith
        · linarith
      constructor
      · apply div_nonneg <;> linarith
      · rw [div_le_one hden]; linarith

theorem rgbToHsl_h_mem (r g b : ℚ) (hr0 : 0 ≤ r) (hr1 : r ≤ 255)
    (hg0 : 0 ≤ g) (hg1 : g ≤ 255) (hb0 : 0 ≤ b) (hb1 : b ≤ 255) :
    0 ≤ (rgbToHsl r g b).1 ∧ (rgbToHsl r g b).1 ≤ 1 := by
  simp only [rgbToHsl]
  set r' := r / 255 with hr'
  set g' := g / 255 with hg'
  set b' := b / 255 with hb'
  have hr'0 : 0 ≤ r' := by rw [hr']; positivity
  have hg'0 : 0 ≤ g' := by rw [hg']; positivity
  have hb'0 : 0 ≤ b' := by rw [hb']; positivity
  have hr'1 : r' ≤ 1 := by rw [hr', div_le_one] <;> linarith
  have hg'1 : g' ≤ 1 := by rw [hg', div_le_one] <;> linarith
  have hb'1 : b' ≤ 1 := by rw [hb', div_le_one] <;> linarith
  set mx := max r' (max g' b') with hmx
  set mn := min r' (min g' b') with hmn
  have hmxr : r' ≤ mx := le_max_left _ _
  have hmxg : g' ≤ mx := le_trans (le_max_left _ _) (le_max_right _ _)
  have hmxb : b' ≤ mx := le_trans (le_max_right _ _) (le_max_right _ _)
  have hmnr : mn ≤ r' := min_le_left _ _
  have hmng : mn ≤ g' := le_trans (min_le_right _ _) (min_le_left _ _)
  have hmnb : mn ≤ b' := le_trans (min_le_right _ _) (min_le_right _ _)
  have hmnmx : mn ≤ mx := le_trans hmnr hmxr
  by_cases hc : mx = mn
  · rw [if_pos hc]; dsimp only; norm_num
  · rw [if_neg hc]; dsimp only
    have hlt : mn < mx := lt_of_le_of_ne hmnmx (fun h => hc h.symm)
    have hd : 0 < mx - mn := by linarith
    split_ifs with hxr hgb hxg
    · -- dominant red channel, g' < b' (offset +6)
      have hub : (g' - b') / (mx - mn) < 0 := div_neg_of_neg_of_pos (by linarith) hd
      have hlb : -1 ≤ (g' - b') / (mx - mn) := by
        rw [le_div_iff₀ hd]; linarith
      constructor <;> linarith
    · -- dominant red channel, g' ≥ b'
      have hub : (g' - b') / (mx - mn) ≤ 1 := by
        rw [div_le_one hd]; linarith
      have hlb : 0 ≤ (g' - b') / (mx - mn) := div_nonneg (by linarith) (le_of_lt hd)
      constructor <;> linarith
    · -- dominant green channel
      have hub : (b' - r') / (mx - mn) ≤ 1 := by
        rw [div_le_one hd]; linarith
      have hlb : -1 ≤ (b' - r') / (mx - mn) := by
        rw [le_div_iff₀ hd]; linarith
      constructor <;> linarith
    · -- dominant blue channel
      have hub : (r' - g') / (mx - mn) ≤ 1 := by
        rw [div_le_one hd]; linarith
      have hlb : -1 ≤ (r' - g') / (mx - mn) := by
        rw [le_div_iff₀ hd]; linarith
      constructor <;> linarith

theorem hue2rgb_eval (p q t : ℚ) (h0 : 0 ≤ t) (h1 : t ≤ 1) :
    hue2rgb p q t =
      if t < 1/6 then p + (q - p) * 6 * t
      else if t < 1/2 then q
      else if t < 2/3 then p + (q - p) * (2/3 - t) * 6
      else p := by
  unfold hue2rgb
  rw [if_neg (show ¬ t < 0 by linarith)]
  dsimp only
  rw [if_neg (show ¬ t > 1 by linarith)]

theorem hue2rgb_add_one (p q t : ℚ) (h0 : -1 ≤ t) (h1 : t < 0) :
    hue2rgb p q t = hue2rgb p q (t + 1) := by
  unfold hue2rgb
  rw [if_pos h1, if_neg (show ¬ t + 1 < 0 by linarith)]

theorem hue2rgb_sub_one (p q t : ℚ) (h0 : 1 < t) (h1 : t ≤ 2) :
    hue2rgb p q t = hue2rgb p q (t - 1) := by
  unfold hue2rgb
  rw [if_neg (show ¬ t < 0 by linarith), if_neg (show ¬ t - 1 < 0 by linarith)]
  dsimp only
  rw [if_pos (show t > 1 from h0), if_neg (show ¬ t - 1 > 1 by linarith)]

theorem hue2rgb_mem (p q t : ℚ) (hpq : p ≤ q) (ht0 : -1 ≤ t) (ht1 : t ≤ 2) :
    p ≤ hue2rgb p q t ∧ hue2rgb p q t ≤ q := by
  rcases lt_or_le t 0 with hneg | hnn
  · rw [hue2rgb_add_one p q t ht0 hneg, hue2rgb_eval p q (t + 1) (by linarith) (by linarith)]
    split_ifs <;> constructor <;> nlinarith
  · rcases le_or_lt t 1 with hle | hgt
    · rw [hue2rgb_eval p q t hnn hle]
      split_ifs <;> constructor <;> nlinarith
    · rw [hue2rgb_sub_one p q t hgt ht1, hue2rgb_eval p q (t - 1) (by linarith) (by linarith)]
      split_ifs <;> constructor <;> nlinarith

theorem hslToRgb_mem (h s l : ℚ) (hh0 : 0 ≤ h) (hh1 : h ≤ 1)
    (hs0 : 0 ≤ s) (hs1 : s ≤ 1) (hl0 : 0 ≤ l) (hl1 : l ≤ 1) :
    (0 ≤ (hslToRgb h s l).1 ∧ (hslToRgb h s l).1 ≤ 255) ∧
    (0 ≤ (hslToRgb h s l).2.1 ∧ (hslToRgb h s l).2.1 ≤ 255) ∧
    (0 ≤ (hslToRgb h s l).2.2 ∧ (hslToRgb h s l).2.2 ≤ 255) := by
  unfold hslToRgb
  by_cases hs : s = 0
  · rw [if_pos hs]; dsimp only
    have := jsRound_mem (l * 255) (by nlinarith) (by nlinarith)
    exact ⟨this, this, this⟩
  · rw [if_neg hs]; dsimp only
    set Q := if l < 1/2 then l * (1 + s) else l + s - l * s with hQ
    have hPQ : 2 * l - Q ≤ Q ∧ 0 ≤ 2 * l - Q ∧ Q ≤ 1 := by
      rw [hQ]; split_ifs with hl <;> refine ⟨by nlinarith, by nlinarith, by nlinarith⟩
    have key : ∀ t : ℚ, -1 ≤ t → t ≤ 2 →
        0 ≤ jsRound (hue2rgb (2 * l - Q) Q t * 255) ∧
        jsRound (hue2rgb (2 * l - Q) Q t * 255) ≤ 255 := by
      intro t ht0 ht1
      have hm := hue2rgb_mem (2 * l - Q) Q t hPQ.1 ht0 ht1
      exact jsRound_mem _ (by nlinarith [hPQ.2.1, hm.1]) (by nlinarith [hPQ.2.2, hm.2])
    exact ⟨key (h + 1/3) (by linarith) (by linarith),
      key h (by linarith) (by linarith),
      key (h - 1/3) (by linarith) (by linarith)⟩

theorem clampToUint8_intCast (k : ℤ) (h0 : 0 ≤ k) (h1 : k ≤ 255) :
    clampToUint8 (k : ℚ) = k.toNat := by
  unfold clampToUint8
  by_cases hk : (k : ℚ) ≤ 0
  · have : k = 0 := le_antisymm (by exact_mod_cast hk) h0
    subst this
    simp
  · rw [if_neg hk]
    by_cases hk2 : (255 : ℚ) ≤ (k : ℚ)
    · have : k = 255 := le_antisymm h1 (by exact_mod_cast hk2)
      subst this
      rw [if_pos (by norm_num)]
      rfl
    · rw [if_neg hk2]
      dsimp only
      rw [Int.floor_intCast]
      rw [if_pos (by norm_num)]

theorem applyColorPixel_maskZero (hT sT : ℚ) (src msk : Pixel)
    (ha : msk.a = 0) : applyColorPixel hT sT src msk = src := by
  unfold applyColorPixel
  rw [ha]
  rfl

theorem applyColorPixel_maskFull (hT sT : ℚ) (hh0 : 0 ≤ hT) (hh1 : hT ≤ 1)
    (hs0 : 0 ≤ sT) (hs1 : sT ≤ 1) (src msk : Pixel)
    (hr : src.r ≤ 255) (hg : src.g ≤ 255) (hb : src.b ≤ 255)
    (ha : msk.a = 255) :
    applyColorPixel hT sT src msk =
      { r := (hslToRgb hT sT (rgbToHsl src.r src.g src.b).2.2).1.toNat
        g := (hslToRgb hT sT (rgbToHsl src.r src.g src.b).2.2).2.1.toNat
        b := (hslToRgb hT sT (rgbToHsl src.r src.g src.b).2.2).2.2.toNat
        a := src.a } := by
  have hl := rgbToHsl_l_mem src.r src.g src.b (Nat.cast_nonneg _)
    (by exact_mod_cast hr) (Nat.cast_nonneg _) (by exact_mod_cast hg)
    (Nat.cast_nonneg _) (by exact_mod_cast hb)
  have hm := hslToRgb_mem hT sT _ hh0 hh1 hs0 hs1 hl.1 hl.2
  have hlerp : ∀ (v : ℕ) (c : ℤ), lerp v c (((255 : ℕ) : ℚ) / 255) = c := by
    intro v c; unfold lerp; push_cast; ring
  unfold applyColorPixel
  rw [ha, if_pos (by norm_num : (255 : ℕ) > 0)]
  dsimp only
  rw [hlerp, hlerp, hlerp]
  simp only [Pixel.mk.injEq]
  exact ⟨clampToUint8_intCast _ hm.1.1 hm.1.2,
    clampToUint8_intCast _ hm.2.1.1 hm.2.1.2,
    clampToUint8_intCast _ hm.2.2.1 hm.2.2.2, trivial⟩

/-- Claim C1: at every pixel whose mask alpha is 255, the output pixel
of `applyColor` is exactly `hslToRgb hT sT l` where `(hT, sT)` is the
hue/saturation of the target color (the hex value decoded by
`hexToRgb`, converted by `rgbToHsl`) and `l` is the lightness of
`rgbToHsl` applied to the source pixel; the alpha channel keeps the
source pixel's value. -/
theorem C1_maskFull_recolor (source mask : List Pixel) (hex : ℕ) (i : ℕ)
    (hi : i < (applyColor source mask hex).length)
    (hsrc : i < source.length) (hmask : i < mask.length)
    (hr : source[i].r ≤ 255) (hg : source[i].g ≤ 255)
    (hb : source[i].b ≤ 255) (ha : mask[i].a = 255) :
    (applyColor source mask hex)[i] =
      { r := (hslToRgb
                (rgbToHsl ((hexToRgb hex).1 : ℚ) ((hexToRgb hex).2.1 : ℚ)
                  ((hexToRgb hex).2.2 : ℚ)).1
                (rgbToHsl ((hexToRgb hex).1 : ℚ) ((hexToRgb hex).2.1 : ℚ)
                  ((hexToRgb hex).2.2 : ℚ)).2.1
                (rgbToHsl (source[i].r : ℚ) (source[i].g : ℚ)
                  (source[i].b : ℚ)).2.2).1.toNat
        g := (hslToRgb
                (rgbToHsl ((hexToRgb hex).1 : ℚ) ((hexToRgb hex).2.1 : ℚ)
                  ((hexToRgb hex).2.2 : ℚ)).1
                (rgbToHsl ((hexToRgb hex).1 : ℚ) ((hexToRgb hex).2.1 : ℚ)
                  ((hexToRgb hex).2.2 : ℚ)).2.1
                (rgbToHsl (source[i].r : ℚ) (source[i].g : ℚ)
                  (source[i].b : ℚ)).2.2).2.1.toNat
        b := (hslToRgb
                (rgbToHsl ((hexToRgb hex).1 : ℚ) ((hexToRgb hex).2.1 : ℚ)
                  ((hexToRgb hex).2.2 : ℚ)).1
                (rgbToHsl ((hexToRgb hex).1 : ℚ) ((hexToRgb hex).2.1 : ℚ)
                  ((hexToRgb hex).2.2 : ℚ)).2.1
                (rgbToHsl (source[i].r : ℚ) (source[i].g : ℚ)
                  (source[i].b : ℚ)).2.2).2.2.toNat
        a := source[i].a } := by
  have ht1 : (hexToRgb hex).1 ≤ 255 := Nat.and_le_right
  have ht2 : (hexToRgb hex).2.1 ≤ 255 := Nat.and_le_right
  have ht3 : (hexToRgb hex).2.2 ≤ 255 := Nat.and_le_right
  have hTm := rgbToHsl_h_mem ((hexToRgb hex).1 : ℚ) ((hexToRgb hex).2.1 : ℚ)
    ((hexToRgb hex).2.2 : ℚ) (Nat.cast_nonneg _) (by exact_mod_cast ht1)
    (Nat.cast_nonneg _) (by exact_mod_cast ht2)
    (Nat.cast_nonneg _) (by exact_mod_cast ht3)
  have hSm := rgbToHsl_s_mem ((hexToRgb hex).1 : ℚ) ((hexToRgb hex).2.1 : ℚ)
    ((hexToRgb hex).2.2 : ℚ) (Nat.cast_nonneg _) (by exact_mod_cast ht1)
    (Nat.cast_nonneg _) (by exact_mod_cast ht2)
    (Nat.cast_nonneg _) (by exact_mod_cast ht3)
  simp only [applyColor, List.getElem_zipWith]
  exact applyColorPixel_maskFull _ _ hTm.1 hTm.2 hSm.1 hSm.2 _ _ hr hg hb ha

theorem C1_maskFull_recolor_witness :
    (applyColor [⟨100, 100, 100, 40⟩] [⟨0, 0, 0, 255⟩] 0xFF0000).get
      ⟨0, by simp [applyColor]⟩ = ⟨200, 0, 0, 40⟩ := by
  refine Eq.trans
    (C1_maskFull_recolor [⟨100, 100, 100, 40⟩] [⟨0, 0, 0, 255⟩] 0xFF0000 0
      (by simp [applyColor]) (by simp) (by simp)
      (by decide) (by decide) (by decide) (by decide)) ?_
  have h1 : hexToRgb 0xFF0000 = (255, 0, 0) := by decide
  have h2 : rgbToHsl 255 0 0 = (0, 1, 1/2) := by norm_num [rgbToHsl]
  have h3 : rgbToHsl 100 100 100 = (0, 0, 20/51) := by norm_num [rgbToHsl]
  have h4 : hslToRgb 0 1 (20/51) = (200, 0, 0) := by
    norm_num [hslToRgb, hue2rgb, jsRound]
  norm_num [h1, h2, h3, h4]
  decide

/-- Claim C2: at every pixel whose mask alpha is 0, `applyColor` leaves
the pixel exactly equal to the source pixel (all four channels). -/
theorem C2_maskZero_noop (source mask : List Pixel) (hex : ℕ) (i : ℕ)
    (hi : i < (applyColor source mask hex).length)
    (hsrc : i < source.length) (hmask : i < mask.length)
    (ha : mask[i].a = 0) :
    (applyColor source mask hex)[i] = source[i] := by
  simp only [applyColor, List.getElem_zipWith]
  exact applyColorPixel_maskZero _ _ _ _ ha

theorem C2_maskZero_noop_witness :
    (applyColor [⟨1, 2, 3, 4⟩] [⟨9, 9, 9, 0⟩] 0x123456).get
      ⟨0, by simp [applyColor]⟩ = ⟨1, 2, 3, 4⟩ :=
  C2_maskZero_noop [⟨1, 2, 3, 4⟩] [⟨9, 9, 9, 0⟩] 0x123456 0
    (by simp [applyColor]) (by simp) (by simp) (by decide)

/-- Claim C10: `applyColor` never writes the alpha channel: every
output pixel's alpha equals the corresponding source pixel's alpha. -/
theorem C10_alpha_unchanged (source mask : List Pixel) (hex : ℕ) (i : ℕ)
    (hi : i < (applyColor source mask hex).length)
    (hsrc : i < source.length) (hmask : i < mask.length) :
    (applyColor source mask hex)[i].a = source[i].a := by
  simp only [applyColor, List.getElem_zipWith]
  unfold applyColorPixel
  by_cases h : mask[i].a > 0
  · rw [if_pos h]
  · rw [if_neg h]

theorem C10_alpha_unchanged_witness :
    ((applyColor [⟨10, 20, 30, 77⟩] [⟨0, 0, 0, 128⟩] 0x00FF00).get
      ⟨0, by simp [applyColor]⟩).a = 77 :=
  C10_alpha_unchanged [⟨10, 20, 30, 77⟩] [⟨0, 0, 0, 128⟩] 0x00FF00 0
    (by simp [applyColor]) (by simp) (by simp)

/-- Claim C4: running the recoloring operation a second time with the
same target color from the same session yields the very same session
(in particular the same output canvas), because the operation always
recomputes from the pristine original image; and the operation never
changes the original image or the mask buffer. -/
theorem C4_idempotent (s : Session) (hex : ℕ) :
    (applyColorOp (applyColorOp s hex).1 hex).1 = (applyColorOp s hex).1 ∧
    (applyColorOp s hex).1.originalImage = s.originalImage ∧
    (applyColorOp s hex).1.maskCanvas = s.maskCanvas := by
  rcases s with ⟨oi, mc, cf, cv, bm, ba⟩
  cases oi <;> cases mc <;> simp [applyColorOp]

/-- Claim C5: gray source pixel (100, 100, 100) with target `#FF0000`
(hue 0, saturation 1) under mask alpha 255 produces exactly
`hslToRgb 0 1 (100/255) = (200, 0, 0)`. -/
theorem C5_gray_red_scenario :
    applyColor [⟨100, 100, 100, 255⟩] [⟨0, 0, 0, 255⟩] 0xFF0000
        = [⟨200, 0, 0, 255⟩] ∧
    hexToRgb 0xFF0000 = (255, 0, 0) ∧
    rgbToHsl 255 0 0 = (0, 1, 1/2) ∧
    hslToRgb 0 1 (100 / 255) = (200, 0, 0) := by
  have h1 : hexToRgb 0xFF0000 = (255, 0, 0) := by decide
  have h2 : rgbToHsl 255 0 0 = (0, 1, 1/2) := by norm_num [rgbToHsl]
  have h3 : rgbToHsl 100 100 100 = (0, 0, 20/51) := by norm_num [rgbToHsl]
  have h4 : hslToRgb 0 1 (20/51) = (200, 0, 0) := by
    norm_num [hslToRgb, hue2rgb, jsRound]
  refine ⟨?_, h1, h2, by rw [show (100 : ℚ)/255 = 20/51 by norm_num]; exact h4⟩
  · norm_num [applyColor, applyColorPixel, h1, h2, h3, h4, lerp, clampToUint8]
    decide

theorem hue2rgb_eq_q (p q t : ℚ) (h1 : 1/6 ≤ t) (h2 : t ≤ 1/2) :
    hue2rgb p q t = q := by
  rw [hue2rgb_eval p q t (by linarith) (by linarith)]
  rcases lt_or_eq_of_le h2 with h | h
  · rw [if_neg (by linarith), if_pos h]
  · rw [if_neg (by linarith), if_neg (by rw [h]; norm_num),
      if_pos (by rw [h]; norm_num)]
    subst h
    ring

theorem hue2rgb_eq_p (p q t : ℚ) (h1 : 2/3 ≤ t) (h2 : t ≤ 1) :
    hue2rgb p q t = p := by
  rw [hue2rgb_eval p q t (by linarith) h2]
  rw [if_neg (by linarith), if_neg (by linarith), if_neg (by linarith)]

theorem hue2rgb_eq_ramp_up (p q t : ℚ) (h1 : 0 ≤ t) (h2 : t ≤ 1/6) :
    hue2rgb p q t = p + (q - p) * 6 * t := by
  rw [hue2rgb_eval p q t h1 (by linarith)]
  rcases lt_or_eq_of_le h2 with h | h
  · rw [if_pos h]
  · rw [if_neg (by rw [h]; norm_num), if_pos (by rw [h]; norm_num)]
    subst h
    ring

theorem hue2rgb_eq_ramp_down (p q t : ℚ) (h1 : 1/2 ≤ t) (h2 : t ≤ 2/3) :
    hue2rgb p q t = p + (q - p) * (2/3 - t) * 6 := by
  rw [hue2rgb_eval p q t (by linarith) (by linarith)]
  rcases lt_or_eq_of_le h2 with h | h
  · rw [if_neg (by linarith), if_neg (by linarith), if_pos h]
  · rw [if_neg (by linarith), if_neg (by linarith), if_neg (by rw [h]; norm_num)]
    subst h
    ring

theorem hueRec_red_ge (x y z : ℚ) (h1 : z ≤ y) (h2 : y ≤ x) (h3 : z < x) :
    hue2rgb z x ((y - z) / (x - z) / 6 + 1/3) = x ∧
    hue2rgb z x ((y - z) / (x - z) / 6) = y ∧
    hue2rgb z x ((y - z) / (x - z) / 6 - 1/3) = z := by
  have hd : 0 < x - z := by linarith
  have hA0 : 0 ≤ (y - z) / (x - z) := div_nonneg (by linarith) hd.le
  have hA1 : (y - z) / (x - z) ≤ 1 := by rw [div_le_one hd]; linarith
  refine ⟨?_, ?_, ?_⟩
  · rw [hue2rgb_eq_q _ _ _ (by linarith) (by linarith)]
  · rw [hue2rgb_eq_ramp_up _ _ _ (by linarith) (by linarith)]
    field_simp
  · rw [hue2rgb_add_one _ _ _ (by linarith) (by linarith)]
    rw [hue2rgb_eq_p _ _ _ (by linarith) (by linarith)]

theorem hueRec_red_lt (x y z : ℚ) (h1 : y < z) (h2 : z ≤ x) (h3 : y < x) :
    hue2rgb y x (((y - z) / (x - y) + 6) / 6 + 1/3) = x ∧
    hue2rgb y x (((y - z) / (x - y) + 6) / 6) = y ∧
    hue2rgb y x (((y - z) / (x - y) + 6) / 6 - 1/3) = z := by
  have hd : 0 < x - y := by linarith
  have hA0 : (y - z) / (x - y) < 0 := div_neg_of_neg_of_pos (by linarith) hd
  have hA1 : -1 ≤ (y - z) / (x - y) := by
    rw [le_div_iff₀ hd]; linarith
  refine ⟨?_, ?_, ?_⟩
  · rw [hue2rgb_sub_one _ _ _ (by linarith) (by linarith)]
    rw [hue2rgb_eq_q _ _ _ (by linarith) (by linarith)]
  · rw [hue2rgb_eq_p _ _ _ (by linarith) (by linarith)]
  · rw [hue2rgb_eq_ramp_down _ _ _ (by linarith) (by linarith)]
    field_simp
    ring

theorem hueRec_green_le (x y z : ℚ) (h1 : z ≤ x) (h2 : x ≤ y) (h3 : z < y) :
    hue2rgb z y (((z - x) / (y - z) + 2) / 6 + 1/3) = x ∧
    hue2rgb z y (((z - x) / (y - z) + 2) / 6) = y ∧
    hue2rgb z y (((z - x) / (y - z) + 2) / 6 - 1/3) = z := by
  have hd : 0 < y - z := by linarith
  have hA0 : (z - x) / (y - z) ≤ 0 :=
    div_nonpos_of_nonpos_of_nonneg (by linarith) hd.le
  have hA1 : -1 ≤ (z - x) / (y - z) := by
    rw [le_div_iff₀ hd]; linarith
  refine ⟨?_, ?_, ?_⟩
  · rw [hue2rgb_eq_ramp_down _ _ _ (by linarith) (by linarith)]
    field_simp
    ring
  · rw [hue2rgb_eq_q _ _ _ (by linarith) (by linarith)]
  · by_cases hA : (z - x) / (y - z) < 0
    · rw [hue2rgb_add_one _ _ _ (by linarith) (by linarith)]
      rw [hue2rgb_eq_p _ _ _ (by linarith) (by linarith)]
    · have hA0' : (z - x) / (y - z) = 0 := le_antisymm hA0 (not_lt.mp hA)
      have hxz : z - x = 0 := by
        rcases div_eq_zero_iff.mp hA0' with h | h
        · exact h
        · exact absurd h hd.ne'
      rw [hue2rgb_eq_ramp_up _ _ _ (by rw [hA0']; norm_num) (by rw [hA0']; norm_num)]
      rw [hA0']
      norm_num

theorem hueRec_green_gt (x y z : ℚ) (h1 : x < z) (h2 : z ≤ y) (h3 : x < y) :
    hue2rgb x y (((z - x) / (y - x) + 2) / 6 + 1/3) = x ∧
    hue2rgb x y (((z - x) / (y - x) + 2) / 6) = y ∧
    hue2rgb x y (((z - x) / (y - x) + 2) / 6 - 1/3) = z := by
  have hd : 0 < y - x := by linarith
  have hA0 : 0 < (z - x) / (y - x) := div_pos (by linarith) hd
  have hA1 : (z - x) / (y - x) ≤ 1 := by rw [div_le_one hd]; linarith
  refine ⟨?_, ?_, ?_⟩
  · rw [hue2rgb_eq_p _ _ _ (by linarith) (by linarith)]
  · rw [hue2rgb_eq_q _ _ _ (by linarith) (by linarith)]
  · rw [hue2rgb_eq_ramp_up _ _ _ (by linarith) (by linarith)]
    field_simp
    ring

theorem hueRec_blue_le (x y z : ℚ) (h1 : y ≤ x) (h2 : x ≤ z) (h3 : y < z) :
    hue2rgb y z (((x - y) / (z - y) + 4) / 6 + 1/3) = x ∧
    hue2rgb y z (((x - y) / (z - y) + 4) / 6) = y ∧
    hue2rgb y z (((x - y) / (z - y) + 4) / 6 - 1/3) = z := by
  have hd : 0 < z - y := by linarith
  have hA0 : 0 ≤ (x - y) / (z - y) := div_nonneg (by linarith) hd.le
  have hA1 : (x - y) / (z - y) ≤ 1 := by rw [div_le_one hd]; linarith
  refine ⟨?_, ?_, ?_⟩
  · by_cases hA : 0 < (x - y) / (z - y)
    · rw [hue2rgb_sub_one _ _ _ (by linarith) (by linarith)]
      rw [hue2rgb_eq_ramp_up _ _ _ (by linarith) (by linarith)]
      field_simp
      ring
    · have hA0' : (x - y) / (z - y) = 0 := le_antisymm (not_lt.mp hA) hA0
      have hxy : x - y = 0 := by
        rcases div_eq_zero_iff.mp hA0' with h | h
        · exact h
        · exact absurd h hd.ne'
      rw [hue2rgb_eq_p _ _ _ (by rw [hA0']; norm_num) (by rw [hA0']; norm_num)]
      linarith
  · rw [hue2rgb_eq_p _ _ _ (by linarith) (by linarith)]
  · rw [hue2rgb_eq_q _ _ _ (by linarith) (by linarith)]

theorem hueRec_blue_gt (x y z : ℚ) (h1 : x < y) (h2 : y ≤ z) (h3 : x < z) :
    hue2rgb x z (((x - y) / (z - x) + 4) / 6 + 1/3) = x ∧
    hue2rgb x z (((x - y) / (z - x) + 4) / 6) = y ∧
    hue2rgb x z (((x - y) / (z - x) + 4) / 6 - 1/3) = z := by
  have hd : 0 < z - x := by linarith
  have hA0 : (x - y) / (z - x) < 0 := div_neg_of_neg_of_pos (by linarith) hd
  have hA1 : -1 ≤ (x - y) / (z - x) := by
    rw [le_div_iff₀ hd]; linarith
  refine ⟨?_, ?_, ?_⟩
  · rw [hue2rgb_eq_p _ _ _ (by linarith) (by linarith)]
  · rw [hue2rgb_eq_ramp_down _ _ _ (by linarith) (by linarith)]
    field_simp
    ring
  · rw [hue2rgb_eq_q _ _ _ (by linarith) (by linarith)]

theorem jsRound_natCast (n : ℕ) : jsRound (n : ℚ) = n := by
  unfold jsRound
  rw [show ((n : ℚ) + 1/2) = ((n : ℤ) : ℚ) + 1/2 by push_cast; ring,
    Int.floor_int_add]
  norm_num

theorem max_eq_min_all_eq (x y z : ℚ)
    (h : max x (max y z) = min x (min y z)) : x = y ∧ y = z := by
  have hx_le : x ≤ max x (max y z) := le_max_left _ _
  have hy_le : y ≤ max x (max y z) := (le_max_left y z).trans (le_max_right _ _)
  have hz_le : z ≤ max x (max y z) := (le_max_right y z).trans (le_max_right _ _)
  have hx_ge : min x (min y z) ≤ x := min_le_left _ _
  have hy_ge : min x (min y z) ≤ y := (min_le_right _ _).trans (min_le_left _ _)
  have hz_ge : min x (min y z) ≤ z := (min_le_right _ _).trans (min_le_right _ _)
  rw [h] at hx_le hy_le hz_le
  constructor <;> linarith

theorem pq_eq (mx mn : ℚ) (hmn0 : 0 ≤ mn) (hmx1 : mx ≤ 1) (hlt : mn < mx) :
    ((if (mx + mn)/2 > 1/2 then (mx - mn)/(2 - mx - mn)
      else (mx - mn)/(mx + mn)) ≠ 0) ∧
    ((if (mx + mn)/2 < 1/2 then
        (mx + mn)/2 * (1 + (if (mx + mn)/2 > 1/2 then (mx - mn)/(2 - mx - mn)
          else (mx - mn)/(mx + mn)))
      else (mx + mn)/2 + (if (mx + mn)/2 > 1/2 then (mx - mn)/(2 - mx - mn)
          else (mx - mn)/(mx + mn))
        - (mx + mn)/2 * (if (mx + mn)/2 > 1/2 then (mx - mn)/(2 - mx - mn)
          else (mx - mn)/(mx + mn)))
      = mx) := by
  by_cases hl : (mx + mn)/2 > 1/2
  · have hden : 0 < 2 - mx - mn := by linarith
    rw [if_pos hl, if_neg (show ¬ (mx + mn)/2 < 1/2 by linarith)]
    constructor
    · exact div_ne_zero (by linarith) hden.ne'
    · field_simp
      ring
  · have hden : 0 < mx + mn := by
      rcases lt_or_le 0 mx with h | h
      · linarith
      · linarith
    rw [if_neg hl]
    constructor
    · exact div_ne_zero (by linarith) hden.ne'
    · by_cases hl2 : (mx + mn)/2 < 1/2
      · rw [if_pos hl2]
        field_simp
        ring
      · rw [if_neg hl2]
        have hsum : mx + mn = 1 := by linarith
        rw [hsum, div_one]
        linarith

theorem hue_reconstruct (x y z : ℚ)
    (hne : max x (max y z) ≠ min x (min y z)) :
    hue2rgb (min x (min y z)) (max x (max y z))
      ((if max x (max y z) = x then
          (y - z) / (max x (max y z) - min x (min y z)) +
            (if y < z then 6 else 0)
        else if max x (max y z) = y then
          (z - x) / (max x (max y z) - min x (min y z)) + 2
        else (x - y) / (max x (max y z) - min x (min y z)) + 4) / 6 + 1/3)
      = x ∧
    hue2rgb (min x (min y z)) (max x (max y z))
      ((if max x (max y z) = x then
          (y - z) / (max x (max y z) - min x (min y z)) +
            (if y < z then 6 else 0)
        else if max x (max y z) = y then
          (z - x) / (max x (max y z) - min x (min y z)) + 2
        else (x - y) / (max x (max y z) - min x (min y z)) + 4) / 6)
      = y ∧
    hue2rgb (min x (min y z)) (max x (max y z))
      ((if max x (max y z) = x then
          (y - z) / (max x (max y z) - min x (min y z)) +
            (if y < z then 6 else 0)
        else if max x (max y z) = y then
          (z - x) / (max x (max y z) - min x (min y z)) + 2
        else (x - y) / (max x (max y z) - min x (min y z)) + 4) / 6 - 1/3)
      = z := by
  have hxmx : x ≤ max x (max y z) := le_max_left _ _
  have hymx : y ≤ max x (max y z) := (le_max_left y z).trans (le_max_right _ _)
  have hzmx : z ≤ max x (max y z) := (le_max_right y z).trans (le_max_right _ _)
  by_cases hx : max x (max y z) = x
  · rw [if_pos hx]
    have hzx : z ≤ x := hx ▸ hzmx
    have hyx : y ≤ x := hx ▸ hymx
    by_cases hyz : y < z
    · rw [if_pos hyz]
      have hmn : min x (min y z) = y := by
        rw [min_eq_left hyz.le, min_eq_right hyx]
      have hlt : y < x := by
        rcases eq_or_lt_of_le hyx with h | h
        · exact absurd (by rw [hmn, hx, h]) hne
        · exact h
      rw [hmn, hx]
      exact hueRec_red_lt x y z hyz hzx hlt
    · rw [if_neg hyz, add_zero]
      have hzy : z ≤ y := not_lt.mp hyz
      have hmn : min x (min y z) = z := by
        rw [min_eq_right hzy, min_eq_right hzx]
      have hlt : z < x := by
        rcases eq_or_lt_of_le hzx with h | h
        · exact absurd (by rw [hmn, hx, h]) hne
        · exact h
      rw [hmn, hx]
      exact hueRec_red_ge x y z hzy hyx hlt
  · by_cases hy : max x (max y z) = y
    · rw [if_neg hx, if_pos hy]
      have hxy : x ≤ y := hy ▸ hxmx
      have hzy : z ≤ y := hy ▸ hzmx
      have hxlt : x < y := lt_of_le_of_ne hxy (fun h => hx (hy.trans h.symm))
      rcases le_or_lt z x with hzx | hxz
      · have hmn : min x (min y z) = z := by
          rw [min_eq_right hzy, min_eq_right hzx]
        have hlt : z < y := by
          rcases eq_or_lt_of_le hzy with h | h
          · exact absurd (by rw [hmn, hy, h]) hne
          · exact h
        rw [hmn, hy]
        exact hueRec_green_le x y z hzx hxy hlt
      · have hmn : min x (min y z) = x := by
          rw [min_eq_right hzy, min_eq_left hxz.le]
        rw [hmn, hy]
        exact hueRec_green_gt x y z hxz hzy hxlt
    · rw [if_neg hx, if_neg hy]
      have hz : max x (max y z) = z := by
        rcases max_choice x (max y z) with h | h
        · exact absurd h hx
        · rcases max_choice y z with h2 | h2
          · exact absurd (h.trans h2) hy
          · exact h.trans h2
      have hxz : x ≤ z := hz ▸ hxmx
      have hyz : y ≤ z := hz ▸ hymx
      have hxltz : x < z := lt_of_le_of_ne hxz (fun h => hx (hz.trans h.symm))
      have hyltz : y < z := lt_of_le_of_ne hyz (fun h => hy (hz.trans h.symm))
      rcases le_or_lt y x with hyx | hxy
      · have hmn : min x (min y z) = y := by
          rw [min_eq_left hyz, min_eq_right hyx]
        rw [hmn, hz]
        exact hueRec_blue_le x y z hyx hxz hyltz
      · have hmn : min x (min y z) = x := by
          rw [min_eq_left hyz, min_eq_left hxy.le]
        rw [hmn, hz]
        exact hueRec_blue_gt x y z hxy hyz hxltz

theorem hsl_roundtrip (r g b : ℕ) (hr : r ≤ 255) (hg : g ≤ 255)
    (hb : b ≤ 255) :
    hslToRgb (rgbToHsl r g b).1 (rgbToHsl r g b).2.1 (rgbToHsl r g b).2.2 =
      ((r : ℤ), (g : ℤ), (b : ℤ)) := by
  have hxr : (r : ℚ) / 255 * 255 = (r : ℚ) := div_mul_cancel₀ _ (by norm_num)
  have hyr : (g : ℚ) / 255 * 255 = (g : ℚ) := div_mul_cancel₀ _ (by norm_num)
  have hzr : (b : ℚ) / 255 * 255 = (b : ℚ) := div_mul_cancel₀ _ (by norm_num)
  have hx0 : (0 : ℚ) ≤ (r : ℚ) / 255 := by positivity
  have hy0 : (0 : ℚ) ≤ (g : ℚ) / 255 := by positivity
  have hz0 : (0 : ℚ) ≤ (b : ℚ) / 255 := by positivity
  have hx1 : (r : ℚ) / 255 ≤ 1 := by
    rw [div_le_one (by norm_num : (0:ℚ) < 255)]
    exact_mod_cast hr
  have hy1 : (g : ℚ) / 255 ≤ 1 := by
    rw [div_le_one (by norm_num : (0:ℚ) < 255)]
    exact_mod_cast hg
  have hz1 : (b : ℚ) / 255 ≤ 1 := by
    rw [div_le_one (by norm_num : (0:ℚ) < 255)]
    exact_mod_cast hb
  simp only [rgbToHsl]
  by_cases hc : max ((r:ℚ)/255) (max ((g:ℚ)/255) ((b:ℚ)/255)) =
      min ((r:ℚ)/255) (min ((g:ℚ)/255) ((b:ℚ)/255))
  · rw [if_pos hc]
    obtain ⟨hxy, hyz⟩ := max_eq_min_all_eq _ _ _ hc
    dsimp only
    unfold hslToRgb
    rw [if_pos rfl]
    have hl1 : (max ((r:ℚ)/255) (max ((g:ℚ)/255) ((b:ℚ)/255)) +
        min ((r:ℚ)/255) (min ((g:ℚ)/255) ((b:ℚ)/255))) / 2 = (r:ℚ)/255 := by
      rw [← hyz, max_self, min_self, ← hxy, max_self, min_self]
      ring
    rw [hl1]
    simp only [Prod.mk.injEq]
    refine ⟨?_, ?_, ?_⟩
    · rw [hxr, jsRound_natCast]
    · rw [hxy, hyr, jsRound_natCast]
    · rw [hxy, hyz, hzr, jsRound_natCast]
  · rw [if_neg hc]
    dsimp only
    unfold hslToRgb
    have hmn0 : 0 ≤ min ((r:ℚ)/255) (min ((g:ℚ)/255) ((b:ℚ)/255)) :=
      le_min hx0 (le_min hy0 hz0)
    have hmx1 : max ((r:ℚ)/255) (max ((g:ℚ)/255) ((b:ℚ)/255)) ≤ 1 :=
      max_le hx1 (max_le hy1 hz1)
    have hmnmx : min ((r:ℚ)/255) (min ((g:ℚ)/255) ((b:ℚ)/255)) ≤
        max ((r:ℚ)/255) (max ((g:ℚ)/255) ((b:ℚ)/255)) :=
      (min_le_left _ _).trans (le_max_left _ _)
    have hlt : min ((r:ℚ)/255) (min ((g:ℚ)/255) ((b:ℚ)/255)) <
        max ((r:ℚ)/255) (max ((g:ℚ)/255) ((b:ℚ)/255)) :=
      lt_of_le_of_ne hmnmx (fun h => hc h.symm)
    have hpq := pq_eq (max ((r:ℚ)/255) (max ((g:ℚ)/255) ((b:ℚ)/255)))
      (min ((r:ℚ)/255) (min ((g:ℚ)/255) ((b:ℚ)/255))) hmn0 hmx1 hlt
    rw [if_neg hpq.1]
    dsimp only
    rw [hpq.2]
    rw [show 2 * ((max ((r:ℚ)/255) (max ((g:ℚ)/255) ((b:ℚ)/255)) +
        min ((r:ℚ)/255) (min ((g:ℚ)/255) ((b:ℚ)/255))) / 2) -
        max ((r:ℚ)/255) (max ((g:ℚ)/255) ((b:ℚ)/255)) =
        min ((r:ℚ)/255) (min ((g:ℚ)/255) ((b:ℚ)/255)) by ring]
    have hrec := hue_reconstruct ((r:ℚ)/255) ((g:ℚ)/255) ((b:ℚ)/255) hc
    rw [hrec.1, hrec.2.1, hrec.2.2]
    simp only [Prod.mk.injEq]
    refine ⟨?_, ?_, ?_⟩
    · rw [hxr, jsRound_natCast]
    · rw [hyr, jsRound_natCast]
    · rw [hzr, jsRound_natCast]

/-- Claim C3: for every 8-bit RGB triple, `hslToRgb` composed with
`rgbToHsl` returns each channel within 1 of the original; over the
exact rational arithmetic of the model the round trip is in fact exact,
so the difference is 0 on every channel. -/
theorem C3_roundtrip_within_one (r g b : ℕ) (hr : r ≤ 255) (hg : g ≤ 255)
    (hb : b ≤ 255) :
    ((hslToRgb (rgbToHsl r g b).1 (rgbToHsl r g b).2.1
        (rgbToHsl r g b).2.2).1 - (r : ℤ)).natAbs ≤ 1 ∧
    ((hslToRgb (rgbToHsl r g b).1 (rgbToHsl r g b).2.1
        (rgbToHsl r g b).2.2).2.1 - (g : ℤ)).natAbs ≤ 1 ∧
    ((hslToRgb (rgbToHsl r g b).1 (rgbToHsl r g b).2.1
        (rgbToHsl r g b).2.2).2.2 - (b : ℤ)).natAbs ≤ 1 := by
  have h := hsl_roundtrip r g b hr hg hb
  rw [h]
  simp

theorem C3_roundtrip_within_one_witness :
    ((hslToRgb (rgbToHsl ((12:ℕ):ℚ) ((200:ℕ):ℚ) ((7:ℕ):ℚ)).1
        (rgbToHsl ((12:ℕ):ℚ) ((200:ℕ):ℚ) ((7:ℕ):ℚ)).2.1
        (rgbToHsl ((12:ℕ):ℚ) ((200:ℕ):ℚ) ((7:ℕ):ℚ)).2.2).1
          - ((12:ℕ) : ℤ)).natAbs ≤ 1 ∧
    ((hslToRgb (rgbToHsl ((12:ℕ):ℚ) ((200:ℕ):ℚ) ((7:ℕ):ℚ)).1
        (rgbToHsl ((12:ℕ):ℚ) ((200:ℕ):ℚ) ((7:ℕ):ℚ)).2.1
        (rgbToHsl ((12:ℕ):ℚ) ((200:ℕ):ℚ) ((7:ℕ):ℚ)).2.2).2.1
          - ((200:ℕ) : ℤ)).natAbs ≤ 1 ∧
    ((hslToRgb (rgbToHsl ((12:ℕ):ℚ) ((200:ℕ):ℚ) ((7:ℕ):ℚ)).1
        (rgbToHsl ((12:ℕ):ℚ) ((200:ℕ):ℚ) ((7:ℕ):ℚ)).2.1
        (rgbToHsl ((12:ℕ):ℚ) ((200:ℕ):ℚ) ((7:ℕ):ℚ)).2.2).2.2
          - ((7:ℕ) : ℤ)).natAbs ≤ 1 :=
  C3_roundtrip_within_one 12 200 7 (by norm_num) (by norm_num) (by norm_num)

/-- Claim C6 counterexample: in a session that is not in state Masked
(here the Empty session), invoking the recoloring operation does NOT
produce an `InvalidState` error — the app.js guard
`if (!originalImage || !maskCanvas) return;` returns silently, throwing
nothing and setting no error status. -/
theorem C6_counterexample :
    (⟨none, none, none, [], true, true⟩ : Session).state ≠ SessionState.masked ∧
    (applyColorOp ⟨none, none, none, [], true, true⟩ 0).2 ≠
      some AppError.invalidState := by
  constructor
  · intro h
    exact absurd h (by decide)
  · intro h
    exact absurd h (by decide)

/-- Claim C6 amended: invoking the recoloring operation while the
session is not in state Masked is a silent no-op: the session is left
unchanged and no error of any kind is signalled. -/
theorem C6_amended_silent_noop (s : Session) (hex : ℕ)
    (h : s.state ≠ SessionState.masked) :
    applyColorOp s hex = (s, none) := by
  rcases s with ⟨oi, mc, cf, cv, bm, ba⟩
  cases oi with
  | none => cases mc <;> rfl
  | some img =>
    cases mc with
    | none => rfl
    | some m => exact absurd rfl h

theorem C6_amended_silent_noop_witness :
    applyColorOp ⟨none, none, none, [], true, true⟩ 5 =
      (⟨none, none, none, [], true, true⟩, none) :=
  C6_amended_silent_noop ⟨none, none, none, [], true, true⟩ 5 (by decide)

/-- Claim C7: when the service responds with HTTP success but the JSON
body lacks the `maskPngBase64` field, the mask request fails with the
`InvalidResponse` error and the session is returned unchanged: it stays
in state ImageLoaded and keeps the same mask buffer. -/
theorem C7_missing_mask_field (s : Session) (resp : MaskResponse) (hex : ℕ)
    (hfile : s.currentFile = some ()) (hok : resp.ok = true)
    (hmissing : resp.maskPngBase64 = none)
    (hstate : s.state = SessionState.imageLoaded) :
    handleMasking s resp hex = (s, some AppError.invalidResponse) ∧
    (handleMasking s resp hex).1.state = SessionState.imageLoaded ∧
    (handleMasking s resp hex).1.maskCanvas = s.maskCanvas := by
  have h1 : handleMasking s resp hex = (s, some AppError.invalidResponse) := by
    unfold handleMasking
    rw [if_neg (by rw [hfile]; exact fun h => Option.noConfusion h),
      if_neg (by rw [hok]; exact fun h => Bool.noConfusion h), hmissing]
  exact ⟨h1, by rw [h1]; exact hstate, by rw [h1]⟩

theorem C7_missing_mask_field_witness :
    handleMasking ⟨some [⟨1, 2, 3, 4⟩], none, some (), [⟨1, 2, 3, 4⟩], false, true⟩
        ⟨true, "OK", none⟩ 0 =
      (⟨some [⟨1, 2, 3, 4⟩], none, some (), [⟨1, 2, 3, 4⟩], false, true⟩,
        some AppError.invalidResponse) :=
  (C7_missing_mask_field
    ⟨some [⟨1, 2, 3, 4⟩], none, some (), [⟨1, 2, 3, 4⟩], false, true⟩
    ⟨true, "OK", none⟩ 0 rfl rfl rfl rfl).1

/-- Claim C8: when the segmentation endpoint returns a non-success HTTP
status, the mask request fails with a `ServiceError` carrying the
response's status text, and the session (including any existing mask
buffer) is returned unchanged. -/
theorem C8_http_failure (s : Session) (resp : MaskResponse) (hex : ℕ)
    (hfile : s.currentFile = some ()) (hnotok : resp.ok = false) :
    handleMasking s resp hex =
      (s, some (AppError.serviceError resp.statusText)) := by
  unfold handleMasking
  rw [if_neg (by rw [hfile]; exact fun h => Option.noConfusion h), if_pos hnotok]

theorem C8_http_failure_witness :
    handleMasking ⟨some [⟨1, 2, 3, 4⟩], some [⟨0, 0, 0, 9⟩], some (), [], false, false⟩
        ⟨false, "Internal Server Error", none⟩ 3 =
      (⟨some [⟨1, 2, 3, 4⟩], some [⟨0, 0, 0, 9⟩], some (), [], false, false⟩,
        some (AppError.serviceError "Internal Server Error")) :=
  C8_http_failure
    ⟨some [⟨1, 2, 3, 4⟩], some [⟨0, 0, 0, 9⟩], some (), [], false, false⟩
    ⟨false, "Internal Server Error", none⟩ 3 rfl rfl

/-- Claim C9: loading a new source image discards any existing mask
buffer and puts the session in state ImageLoaded with the Apply button
disabled; recoloring on the fresh session is a no-op, and a mask
request that fails (non-success HTTP status or missing mask field)
leaves the fresh session unchanged, so recoloring stays disabled until
a mask request succeeds. -/
theorem C9_upload_invalidates_mask (s : Session) (img : List Pixel)
    (hex hex2 : ℕ) (resp : MaskResponse)
    (hfail : resp.ok = false ∨ resp.maskPngBase64 = none) :
    (handleImageUpload s img).maskCanvas = none ∧
    (handleImageUpload s img).state = SessionState.imageLoaded ∧
    (handleImageUpload s img).btnApplyDisabled = true ∧
    applyColorOp (handleImageUpload s img) hex = (handleImageUpload s img, none) ∧
    (handleMasking (handleImageUpload s img) resp hex2).1 =
      handleImageUpload s img := by
  refine ⟨rfl, rfl, rfl, rfl, ?_⟩
  unfold handleMasking
  rw [if_neg (show ¬ (handleImageUpload s img).currentFile = none from
    fun h => Option.noConfusion h)]
  rcases hfail with h | h
  · rw [if_pos h]
  · by_cases hok : resp.ok = false
    · rw [if_pos hok]
    · rw [if_neg hok, h]

theorem C9_upload_invalidates_mask_witness :
    (handleImageUpload ⟨none, none, none, [], true, true⟩ [⟨5, 6, 7, 8⟩]).maskCanvas
        = none ∧
    (handleImageUpload ⟨none, none, none, [], true, true⟩ [⟨5, 6, 7, 8⟩]).state
        = SessionState.imageLoaded ∧
    (handleImageUpload ⟨none, none, none, [], true, true⟩ [⟨5, 6, 7, 8⟩]).btnApplyDisabled
        = true ∧
    applyColorOp (handleImageUpload ⟨none, none, none, [], true, true⟩ [⟨5, 6, 7, 8⟩]) 9
        = (handleImageUpload ⟨none, none, none, [], true, true⟩ [⟨5, 6, 7, 8⟩], none) ∧
    (handleMasking (handleImageUpload ⟨none, none, none, [], true, true⟩ [⟨5, 6, 7, 8⟩])
        ⟨false, "Bad Gateway", none⟩ 9).1
        = handleImageUpload ⟨none, none, none, [], true, true⟩ [⟨5, 6, 7, 8⟩] :=
  C9_upload_invalidates_mask ⟨none, none, none, [], true, true⟩ [⟨5, 6, 7, 8⟩] 9 9
    ⟨false, "Bad Gateway", none⟩ (Or.inl rfl)

end HousePaint
